import Mathlib

/-!
Verification development for the ECS/Fargate CDK CI/CD stack
(`cdk-v2/lib/ecs_cdk-stack.ts`) and its deployment-pipeline
orchestration model.

The repository's source is declarative wiring: the pipeline stage list,
the CodeBuild buildspec, the ECS service/container configuration and the
CPU-scaling policy.  Those parts are embedded below directly from the
source.  The runtime semantics the wiring configures (the pipeline
engine's stage sequencing, the manual-approval gate, the ECS deploy
action's manifest validation, and the capacity controller) are not part
of the repository's code; they are modelled from the specification, and
each such definition says so in its doc comment.
-/

namespace EcsCdk

/-! ### Stage and run vocabulary -/

/-- Kind of a pipeline stage (spec data model: source, build, approval, deploy). -/
inductive StageKind
  | source
  | build
  | approval
  | deploy
deriving DecidableEq, Repr

/-- Status of one stage execution. -/
inductive StageStatus
  | pending
  | running
  | waiting
  | succeeded
  | failed
  | cancelled
deriving DecidableEq, Repr

/-- Overall status of a pipeline run. -/
inductive RunStatus
  | pending
  | running
  | succeeded
  | failed
  | cancelled
deriving DecidableEq, Repr

/-- A run status from which the engine accepts no further events. -/
def RunStatus.isTerminal : RunStatus → Bool
  | .succeeded => true
  | .failed => true
  | .cancelled => true
  | _ => false

/-- One declared stage of the pipeline: its `stageName` and kind. -/
structure StageDecl where
  stageName : String
  kind : StageKind
deriving DecidableEq, Repr

/-- The declared stage sequence, from `new codepipeline.Pipeline(this, 'myecspipeline',
{ stages: [...] })` in `ecs_cdk-stack.ts` (lines 225-244): `source` (GitHubSourceAction),
`build` (CodeBuildAction), `approve` (ManualApprovalAction), `deploy-to-ecs`
(EcsDeployAction). -/
def pipelineStages : List StageDecl :=
  [⟨"source", StageKind.source⟩,
   ⟨"build", StageKind.build⟩,
   ⟨"approve", StageKind.approval⟩,
   ⟨"deploy-to-ecs", StageKind.deploy⟩]

/-- The declared kind at position `i` of the pipeline topology. -/
def declaredKind (i : Nat) : StageKind :=
  (pipelineStages.getD i ⟨"", StageKind.deploy⟩).kind

/-! ### Service configuration, from the source -/

/-- The base container image, from `const baseImage = 'public.ecr.aws/docker/library/python:3.11-slim'`
(line 98 of `ecs_cdk-stack.ts`). -/
def baseImage : String := "public.ecr.aws/docker/library/python:3.11-slim"

/-- The logical container name, from `taskDef.addContainer('streamlit-app', ...)`
(line 99 of `ecs_cdk-stack.ts`). -/
def containerName : String := "streamlit-app"

/-- One container of the service's task definition: logical name and image reference. -/
structure ContainerDef where
  name : String
  image : String
deriving DecidableEq, Repr

/-- Entry of a deployment manifest: logical container name and image URI
(the JSON record shape produced by the buildspec's post_build printf). -/
structure ManifestEntry where
  name : String
  imageUri : String
deriving DecidableEq, Repr

/-- The observable state of the deployed service: its task definition's
containers, the desired replica count, and the capacity controller's
cooldown bookkeeping (time of the last scale-out / scale-in). -/
structure ServiceState where
  containers : List ContainerDef
  desiredCount : Nat
  lastScaleOut : Option Nat
  lastScaleIn : Option Nat
deriving DecidableEq, Repr

/-- The initial service: one container `streamlit-app` running the public base
image, desired count 1 — from `taskDef.addContainer('streamlit-app', { image:
ecs.ContainerImage.fromRegistry(baseImage) ... })` and
`ApplicationLoadBalancedFargateService(..., { desiredCount: 1 ... })`
(lines 97-119 of `ecs_cdk-stack.ts`); no scaling action has happened yet. -/
def initialService : ServiceState :=
  { containers := [{ name := containerName, image := baseImage }]
    desiredCount := 1
    lastScaleOut := none
    lastScaleIn := none }

/-! ### Image builder output, from the buildspec -/

/-- The image tag exported by the buildspec's pre_build phase,
`export tag=latest` (line 162 of `ecs_cdk-stack.ts`): a fixed tag that
ignores the triggering revision. -/
def buildTagOf (_revision : String) : String := "latest"

/-- The deployment manifest written by the buildspec's post_build phase
(line 176 of `ecs_cdk-stack.ts`): a printf of a single-element JSON list
whose one record has name `streamlit-app` and imageUri `$ecr_repo_uri:$tag`. -/
def buildManifest (ecrRepoUri revision : String) : List ManifestEntry :=
  [{ name := "streamlit-app", imageUri := ecrRepoUri ++ ":" ++ buildTagOf revision }]

/-- Modelled from the spec: the image registry host for a private ECR registry,
`<account>.dkr.ecr.<region>.amazonaws.com` — the `<registry>` part of the
`<registry>/<repo>:<tag>` shape of §6.  The repository only references this
URI through `ecrRepo.repositoryUri`, whose format is fixed by the registry. -/
def registryOf (account region : String) : String :=
  account ++ ".dkr.ecr." ++ region ++ ".amazonaws.com"

/-- Modelled from the spec: the repository URI `<registry>/<repo>` that
`ecrRepo.repositoryUri` resolves to and the buildspec receives as
`$ecr_repo_uri` (lines 151-153 of `ecs_cdk-stack.ts`). -/
def ecrRepoUri (account region repoName : String) : String :=
  registryOf account region ++ "/" ++ repoName

/-! ### Service deployer, modelled from the spec -/

/-- Error taxonomy of the deployer (spec §7). -/
inductive DeployError
  | validationError
  | rolloutError
deriving DecidableEq, Repr

/-- Modelled from the spec: the Service Deployer applied by the
`EcsDeployAction` (lines 218-222 of `ecs_cdk-stack.ts`).  It "validates every
entry's logical-container-name exists in the target service definition; on
mismatch, fails without touching the running service (all-or-nothing
validation)"; on success it applies the manifest's image references to the
matching containers (rolling update), leaving the desired count unchanged. -/
def deployStep (svc : ServiceState) (manifest : List ManifestEntry) :
    ServiceState × Except DeployError Unit :=
  if manifest.all (fun e => (svc.containers.map ContainerDef.name).contains e.name) then
    ({ svc with
        containers := svc.containers.map (fun c =>
          match manifest.find? (fun e => e.name == c.name) with
          | some e => { c with image := e.imageUri }
          | none => c) },
      Except.ok ())
  else
    (svc, Except.error DeployError.validationError)

/-! ### Capacity controller, modelled from the spec -/

/-- A scaling policy (spec data model §3). -/
structure ScalingPolicy where
  targetUtilization : Nat
  minCapacity : Nat
  maxCapacity : Nat
  scaleInCooldown : Nat
  scaleOutCooldown : Nat
deriving DecidableEq, Repr

/-- The configured CPU scaling policy, from
`fargateService.service.autoScaleTaskCount({ maxCapacity: 4 })` and
`scaling.scaleOnCpuUtilization('cpuscaling', { targetUtilizationPercent: 10,
scaleInCooldown: 60s, scaleOutCooldown: 60s })` (lines 122-127 of
`ecs_cdk-stack.ts`).  No explicit minimum is configured; the scaling minimum
defaults to 1 (modelled from the spec's "minimum and maximum replica bounds"). -/
def cpuScalingPolicy : ScalingPolicy :=
  { targetUtilization := 10
    minCapacity := 1
    maxCapacity := 4
    scaleInCooldown := 60
    scaleOutCooldown := 60 }

/-- Whether a scale-out cooldown is active at time `now`. -/
def scaleOutCooldownActive (p : ScalingPolicy) (svc : ServiceState) (now : Nat) : Bool :=
  match svc.lastScaleOut with
  | some t => decide (now < t + p.scaleOutCooldown)
  | none => false

/-- Whether a scale-in cooldown is active at time `now`. -/
def scaleInCooldownActive (p : ScalingPolicy) (svc : ServiceState) (now : Nat) : Bool :=
  match svc.lastScaleIn with
  | some t => decide (now < t + p.scaleInCooldown)
  | none => false

/-- Modelled from the spec: one observation of the Capacity Controller (§4.5).
"Compare current metric value to target; if utilization exceeds target, scale
out by a controller-determined step, clamped to maximum; if below, scale in,
clamped to minimum.  After any scale-out, suppress further scale-out decisions
for scaleOutCooldown; after any scale-in, suppress further scale-in decisions
for scaleInCooldown." -/
def observe (p : ScalingPolicy) (svc : ServiceState) (now util stepSize : Nat) :
    ServiceState :=
  if p.targetUtilization < util then
    if scaleOutCooldownActive p svc now then svc
    else if svc.desiredCount < min (svc.desiredCount + stepSize) p.maxCapacity then
      { svc with
          desiredCount := min (svc.desiredCount + stepSize) p.maxCapacity
          lastScaleOut := some now }
    else svc
  else if util < p.targetUtilization then
    if scaleInCooldownActive p svc now then svc
    else if max (svc.desiredCount - stepSize) p.minCapacity < svc.desiredCount then
      { svc with
          desiredCount := max (svc.desiredCount - stepSize) p.minCapacity
          lastScaleIn := some now }
    else svc
  else svc

/-- States of the service reachable from `initialService` under capacity
controller observations and deploy actions — the two operations the spec
allows to touch the service. -/
inductive SvcReachable : ServiceState → Prop
  | init : SvcReachable initialService
  | observe {s : ServiceState} (now util stepSize : Nat) :
      SvcReachable s → SvcReachable (observe cpuScalingPolicy s now util stepSize)
  | deploy {s : ServiceState} (manifest : List ManifestEntry) :
      SvcReachable s → SvcReachable (deployStep s manifest).1

/-! ### Pipeline engine, modelled from the spec -/

/-- An artifact reference: the key under which a stage's output blob is
stored (spec §3: "an immutable named, versioned blob reference"). -/
abbrev ArtifactRef := String

/-- One stage's attempt within a run (spec data model §3). -/
structure StageExecution where
  kind : StageKind
  status : StageStatus
  inputArtifacts : List ArtifactRef
  outputArtifacts : List ArtifactRef
deriving DecidableEq, Repr

/-- One pipeline execution instance (spec data model §3). -/
structure PipelineRun where
  revision : String
  stages : List StageExecution
  status : RunStatus
deriving DecidableEq, Repr

/-- Modelled from the spec: instantiate a stage execution for declared stage
`decl` with the given input artifacts.  A Deployment Gate "enters `waiting`
immediately when reached" (§4.3); every other stage is set `running` (§4.1). -/
def newExec (decl : StageDecl) (input : List ArtifactRef) : StageExecution :=
  { kind := decl.kind
    status := if decl.kind = StageKind.approval then StageStatus.waiting else StageStatus.running
    inputArtifacts := input
    outputArtifacts := [] }

/-- Modelled from the spec: `trigger(revision) -> PipelineRun` (§4.1) "starts a
new run in pending, advances to the first stage, sets it running". -/
def trigger (revision : String) : PipelineRun :=
  { revision := revision
    stages := (pipelineStages.take 1).map (fun d => newExec d [])
    status := RunStatus.running }

/-- Modelled from the spec: resolve stage `idx` as succeeded with output `out`
and advance (§4.1): "if a next stage exists, instantiate its StageExecution
with input = prior stage's output artifact(s), set running; if no next stage,
mark run succeeded".  Stages are instantiated in declared order, so the next
stage exists exactly when `idx` is the frontier and a further stage is
declared. -/
def resolveSucceeded (r : PipelineRun) (idx : Nat) (st : StageExecution)
    (out : List ArtifactRef) : PipelineRun :=
  if idx + 1 = r.stages.length then
    match pipelineStages[idx + 1]? with
    | some d =>
      { r with
          stages := r.stages.set idx
              { st with status := StageStatus.succeeded, outputArtifacts := out }
            ++ [newExec d out]
          status := RunStatus.running }
    | none =>
      { r with
          stages := r.stages.set idx
            { st with status := StageStatus.succeeded, outputArtifacts := out }
          status := RunStatus.succeeded }
  else
    { r with
        stages := r.stages.set idx
          { st with status := StageStatus.succeeded, outputArtifacts := out } }

/-- Modelled from the spec: `advance(run, stageResult)` (§4.1), for a build or
deploy style completion event on stage `idx`.  On `succeeded` the run advances;
on `failed` "mark the stage and the run failed; no further stages start".
"Re-delivering the same completion event for an already-resolved stage is a
no-op (detected by stage identity + expected prior status)": the event only
applies when the stage is currently `running`; and a terminal run accepts no
further events ("no automatic retry — a failed run requires a new trigger"). -/
def advance (r : PipelineRun) (idx : Nat) (ok : Bool) (out : List ArtifactRef) :
    PipelineRun :=
  if r.status.isTerminal then r
  else
    match r.stages[idx]? with
    | none => r
    | some st =>
      if st.status = StageStatus.running then
        if ok then resolveSucceeded r idx st out
        else
          { r with
              stages := r.stages.set idx { st with status := StageStatus.failed }
              status := RunStatus.failed }
      else r

/-- An approval decision (spec §3: "binary outcome {approve, reject}"). -/
inductive Decision
  | approve
  | reject
deriving DecidableEq, Repr

/-- The stage status an accepted decision produces (spec §3: a stage in
`waiting` "transitions to `succeeded` or `failed` based on this decision"). -/
def decisionOutcome : Decision → StageStatus
  | Decision.approve => StageStatus.succeeded
  | Decision.reject => StageStatus.failed

/-- Errors of the approval channel (spec §7: ApprovalConflict — "second
decision on an already-resolved gate — rejected, original decision stands"). -/
inductive GateError
  | approvalConflict
  | stageNotFound
deriving DecidableEq, Repr

/-- Modelled from the spec: submit an ApprovalDecision to the gate stage `idx`
of run `r` (§4.3, configured by the `ManualApprovalAction` at lines 213-215 of
`ecs_cdk-stack.ts`).  "Exactly one ApprovalDecision is accepted; subsequent
decisions are rejected with a conflict error": only a stage currently in
`waiting` (on a live run) accepts a decision.  Approval resolves the stage
succeeded and advances the run, passing the gate's input artifacts through;
rejection marks the stage and the run failed. -/
def submitDecision (r : PipelineRun) (idx : Nat) (d : Decision) :
    PipelineRun × Except GateError Unit :=
  if r.status.isTerminal then (r, Except.error GateError.approvalConflict)
  else
    match r.stages[idx]? with
    | none => (r, Except.error GateError.stageNotFound)
    | some st =>
      if st.status = StageStatus.waiting then
        match d with
        | Decision.approve => (resolveSucceeded r idx st st.inputArtifacts, Except.ok ())
        | Decision.reject =>
          ({ r with
              stages := r.stages.set idx { st with status := StageStatus.failed }
              status := RunStatus.failed },
            Except.ok ())
      else (r, Except.error GateError.approvalConflict)

/-- Modelled from the spec: external cancellation (§4.1): "any stage not yet
`succeeded` is marked `cancelled`; run is terminal". -/
def cancelRun (r : PipelineRun) : PipelineRun :=
  if r.status.isTerminal then r
  else
    { r with
        stages := r.stages.map (fun st =>
          if st.status = StageStatus.succeeded then st
          else { st with status := StageStatus.cancelled })
        status := RunStatus.cancelled }

/-- The events that can reach a run after it is triggered: a stage completion,
an approval decision, or an external cancellation. -/
inductive PipeEvent
  | complete (idx : Nat) (ok : Bool) (out : List ArtifactRef)
  | decision (idx : Nat) (d : Decision)
  | cancel
deriving DecidableEq, Repr

/-- One engine transition on a run. -/
def step (r : PipelineRun) (e : PipeEvent) : PipelineRun :=
  match e with
  | PipeEvent.complete idx ok out => advance r idx ok out
  | PipeEvent.decision idx d => (submitDecision r idx d).1
  | PipeEvent.cancel => cancelRun r

/-- Runs reachable from a trigger under engine transitions. -/
inductive Reachable : PipelineRun → Prop
  | trigger (revision : String) : Reachable (trigger revision)
  | step {r : PipelineRun} (e : PipeEvent) : Reachable r → Reachable (step r e)

/-! ### Demonstration runs (used as concrete witnesses) -/

/-- A run after the source stage completed: stages source=succeeded,
build=running. -/
def demoBuildRun : PipelineRun :=
  step (trigger "abc123") (PipeEvent.complete 0 true ["sourceArtifact"])

/-- A run after source and build completed: the gate stage is `waiting`. -/
def demoWaitingRun : PipelineRun :=
  step demoBuildRun (PipeEvent.complete 1 true ["imagedefinitions.json"])

/-- The spec §8 rejection scenario: source and build succeed, then the gate
receives a `reject` decision. -/
def demoRejectedRun : PipelineRun :=
  step demoWaitingRun (PipeEvent.decision 2 Decision.reject)

/-! ### The engine invariant -/

/-- The inductive invariant of a pipeline run: never more stage executions
than declared stages; stage kinds follow the declared order; every stage
execution but the frontier (last instantiated) one has succeeded; and a
failed stage makes the whole run failed. -/
structure Inv (r : PipelineRun) : Prop where
  len_le : r.stages.length ≤ pipelineStages.length
  kinds : ∀ (i : Nat) (h : i < r.stages.length), r.stages[i].kind = declaredKind i
  resolved : ∀ (i : Nat) (h : i < r.stages.length), i + 1 < r.stages.length →
      r.stages[i].status = StageStatus.succeeded
  failedRun : ∀ (i : Nat) (h : i < r.stages.length),
      r.stages[i].status = StageStatus.failed → r.status = RunStatus.failed

/-! ### Invariant lemmas -/

theorem trigger_stages (revision : String) :
    (trigger revision).stages =
      [{ kind := StageKind.source, status := StageStatus.running,
         inputArtifacts := [], outputArtifacts := [] }] := rfl

theorem trigger_stages_length (revision : String) :
    (trigger revision).stages.length = 1 := rfl

theorem inv_trigger (revision : String) : Inv (trigger revision) := by
  refine ⟨?_, ?_, ?_, ?_⟩
  · rw [trigger_stages]; decide
  · intro i h
    rw [trigger_stages] at h
    match i with
    | 0 => rfl
    | i + 1 => simp at h
  · intro i h h2
    have := trigger_stages_length revision
    omega
  · intro i h hst
    rw [trigger_stages] at h
    match i with
    | 0 =>
      have h0 : (trigger revision).stages[0].status = StageStatus.running := rfl
      rw [h0] at hst
      exact absurd hst (by decide)
    | i + 1 => simp at h

theorem frontier_of_unresolved {r : PipelineRun} (hinv : Inv r) {idx : Nat}
    {st : StageExecution} (hget : r.stages[idx]? = some st)
    (hne : st.status ≠ StageStatus.succeeded) : idx + 1 = r.stages.length := by
  obtain ⟨h, hgeteq⟩ := List.getElem?_eq_some_iff.mp hget
  by_contra hne2
  have h2 : idx + 1 < r.stages.length := by omega
  have hres := hinv.resolved idx h h2
  rw [hgeteq] at hres
  exact hne hres

theorem inv_resolveSucceeded {r : PipelineRun} (hinv : Inv r) {idx : Nat}
    {st : StageExecution} (hget : r.stages[idx]? = some st)
    (hfr : idx + 1 = r.stages.length) (out : List ArtifactRef) :
    Inv (resolveSucceeded r idx st out) := by
  obtain ⟨hidx, hg⟩ := List.getElem?_eq_some_iff.mp hget
  have hkind : st.kind = declaredKind idx := by rw [← hg]; exact hinv.kinds idx hidx
  unfold resolveSucceeded
  rw [if_pos hfr]
  rcases hd : pipelineStages[idx + 1]? with _ | d
  · refine ⟨?_, ?_, ?_, ?_⟩
    · simpa using hinv.len_le
    · intro i h
      simp only [List.length_set] at h
      simp only [List.getElem_set]
      rcases eq_or_ne idx i with heq | hne
      · subst heq; simpa using hkind
      · rw [if_neg hne]; exact hinv.kinds i h
    · intro i h h2
      simp only [List.length_set] at h h2
      simp only [List.getElem_set]
      rcases eq_or_ne idx i with heq | hne
      · omega
      · rw [if_neg hne]; exact hinv.resolved i h h2
    · intro i h hf
      exfalso
      simp only [List.length_set] at h
      simp only [List.getElem_set] at hf
      rcases eq_or_ne idx i with heq | hne
      · rw [if_pos heq] at hf; simp at hf
      · rw [if_neg hne] at hf
        have h2 : i + 1 < r.stages.length := by omega
        have hres := hinv.resolved i h h2
        rw [hres] at hf
        exact absurd hf (by decide)
  · obtain ⟨hlt, _⟩ := List.getElem?_eq_some_iff.mp hd
    refine ⟨?_, ?_, ?_, ?_⟩
    · simp only [List.length_append, List.length_set, List.length_cons, List.length_nil]
      omega
    · intro i h
      simp only [List.length_append, List.length_set, List.length_cons,
        List.length_nil] at h
      rcases Nat.lt_or_ge i r.stages.length with hlt2 | hge
      · rw [List.getElem_append_left (by simpa using hlt2)]
        simp only [List.getElem_set]
        rcases eq_or_ne idx i with heq | hne
        · subst heq; simpa using hkind
        · rw [if_neg hne]; exact hinv.kinds i hlt2
      · have hi : i = r.stages.length := by omega
        rw [List.getElem_concat_length _ _ _ (by simpa using hi)]
        have hi2 : i = idx + 1 := by omega
        subst hi2
        rw [declaredKind, List.getD_eq_getElem?_getD, hd]
        rfl
    · intro i h h2
      simp only [List.length_append, List.length_set, List.length_cons,
        List.length_nil] at h h2
      have hlt2 : i < r.stages.length := by omega
      rw [List.getElem_append_left (by simpa using hlt2)]
      simp only [List.getElem_set]
      rcases eq_or_ne idx i with heq | hne
      · rw [if_pos heq]
      · rw [if_neg hne]
        exact hinv.resolved i hlt2 (by omega)
    · intro i h hf
      exfalso
      simp only [List.length_append, List.length_set, List.length_cons,
        List.length_nil] at h
      rcases Nat.lt_or_ge i r.stages.length with hlt2 | hge
      · rw [List.getElem_append_left (by simpa using hlt2)] at hf
        simp only [List.getElem_set] at hf
        rcases eq_or_ne idx i with heq | hne
        · rw [if_pos heq] at hf; simp at hf
        · rw [if_neg hne] at hf
          have hres := hinv.resolved i hlt2 (by omega)
          rw [hres] at hf
          exact absurd hf (by decide)
      · have hi : i = r.stages.length := by omega
        rw [List.getElem_concat_length _ _ _ (by simpa using hi)] at hf
        simp only [newExec] at hf
        split at hf <;> simp at hf

theorem inv_markFailed {r : PipelineRun} (hinv : Inv r) {idx : Nat}
    {st : StageExecution} (hget : r.stages[idx]? = some st)
    (hne : st.status ≠ StageStatus.succeeded) :
    Inv { r with
            stages := r.stages.set idx { st with status := StageStatus.failed }
            status := RunStatus.failed } := by
  have hfr := frontier_of_unresolved hinv hget hne
  refine ⟨?_, ?_, ?_, ?_⟩
  · simpa using hinv.len_le
  · intro i h
    simp only [List.length_set] at h
    simp only [List.getElem_set]
    rcases eq_or_ne idx i with heq | hne2
    · subst heq
      obtain ⟨hidx, hg⟩ := List.getElem?_eq_some_iff.mp hget
      have := hinv.kinds idx hidx
      rw [hg] at this
      simpa using this
    · rw [if_neg hne2]; exact hinv.kinds i h
  · intro i h h2
    simp only [List.length_set] at h h2
    simp only [List.getElem_set]
    rcases eq_or_ne idx i with heq | hne2
    · omega
    · rw [if_neg hne2]; exact hinv.resolved i h h2
  · intro i h hf
    rfl

theorem inv_advance {r : PipelineRun} (hinv : Inv r) (idx : Nat) (ok : Bool)
    (out : List ArtifactRef) : Inv (advance r idx ok out) := by
  unfold advance
  split
  · exact hinv
  · split
    · exact hinv
    · rename_i st hget
      split
      · rename_i hst
        split
        · exact inv_resolveSucceeded hinv hget
            (frontier_of_unresolved hinv hget (by rw [hst]; decide)) out
        · exact inv_markFailed hinv hget (by rw [hst]; decide)
      · exact hinv

theorem inv_submitDecision_fst {r : PipelineRun} (hinv : Inv r) (idx : Nat)
    (d : Decision) : Inv (submitDecision r idx d).1 := by
  unfold submitDecision
  split
  · exact hinv
  · split
    · exact hinv
    · rename_i st hget
      split
      · rename_i hst
        cases d
        · exact inv_resolveSucceeded hinv hget
            (frontier_of_unresolved hinv hget (by rw [hst]; decide)) st.inputArtifacts
        · exact inv_markFailed hinv hget (by rw [hst]; decide)
      · exact hinv

theorem inv_cancelRun {r : PipelineRun} (hinv : Inv r) : Inv (cancelRun r) := by
  unfold cancelRun
  split
  · exact hinv
  · refine ⟨?_, ?_, ?_, ?_⟩
    · simpa using hinv.len_le
    · intro i h
      simp only [List.length_map] at h
      rw [List.getElem_map]
      have hk := hinv.kinds i h
      split
      · exact hk
      · exact hk
    · intro i h h2
      simp only [List.length_map] at h h2
      rw [List.getElem_map]
      have hres := hinv.resolved i h h2
      rw [if_pos hres]
      exact hres
    · intro i h hf
      exfalso
      simp only [List.length_map] at h
      rw [List.getElem_map] at hf
      split at hf
      · rename_i hsucc
        rw [hsucc] at hf
        exact absurd hf (by decide)
      · simp at hf

theorem inv_step {r : PipelineRun} (hinv : Inv r) (e : PipeEvent) :
    Inv (step r e) := by
  cases e with
  | complete idx ok out => exact inv_advance hinv idx ok out
  | decision idx d => exact inv_submitDecision_fst hinv idx d
  | cancel => exact inv_cancelRun hinv

theorem reachable_inv {r : PipelineRun} (h : Reachable r) : Inv r := by
  induction h with
  | trigger revision => exact inv_trigger revision
  | step e _ ih => exact inv_step ih e

theorem resolveSucceeded_stage {r : PipelineRun} {idx : Nat} {st : StageExecution}
    (hidx : idx < r.stages.length) (out : List ArtifactRef) :
    (resolveSucceeded r idx st out).stages[idx]? =
      some { st with status := StageStatus.succeeded, outputArtifacts := out } := by
  unfold resolveSucceeded
  split
  · split
    · rw [List.getElem?_append, if_pos (by simpa using hidx)]
      exact List.getElem?_set_self hidx
    · exact List.getElem?_set_self hidx
  · exact List.getElem?_set_self hidx

theorem submitDecision_resolved {r : PipelineRun} {idx : Nat} {st : StageExecution}
    (hget : r.stages[idx]? = some st) (hst : st.status ≠ StageStatus.waiting)
    (d : Decision) :
    submitDecision r idx d = (r, Except.error GateError.approvalConflict) := by
  unfold submitDecision
  split
  · rfl
  · simp only [hget]
    rw [if_neg hst]

/-! ### Claim theorems -/

/-- C1: For every PipelineRun, stages execute strictly in the declared order
source, build, approval, deploy; no stage reaches `running` before its
predecessor reaches `succeeded`, and at most one stage per run is ever
`running` at a time.  (Declared order from the `myecspipeline` stage list;
engine sequencing modelled from spec §4.1.) -/
theorem pipeline_stage_order (r : PipelineRun) (hr : Reachable r) :
    r.stages.length ≤ pipelineStages.length ∧
    (∀ (i : Nat) (hi : i < r.stages.length), r.stages[i].kind = declaredKind i) ∧
    (∀ (i j : Nat) (hi : i < r.stages.length) (hj : j < r.stages.length),
      j < i → r.stages[i].status = StageStatus.running →
      r.stages[j].status = StageStatus.succeeded) ∧
    (∀ (i j : Nat) (hi : i < r.stages.length) (hj : j < r.stages.length),
      r.stages[i].status = StageStatus.running →
      r.stages[j].status = StageStatus.running → i = j) := by
  have hinv := reachable_inv hr
  refine ⟨hinv.len_le, fun i hi => hinv.kinds i hi, ?_, ?_⟩
  · intro i j hi hj hji _
    exact hinv.resolved j hj (by omega)
  · intro i j hi hj hri hrj
    have hi1 : i + 1 = r.stages.length := by
      rcases Nat.lt_or_ge (i + 1) r.stages.length with h | h
      · have hres := hinv.resolved i hi h
        rw [hri] at hres
        exact absurd hres (by decide)
      · omega
    have hj1 : j + 1 = r.stages.length := by
      rcases Nat.lt_or_ge (j + 1) r.stages.length with h | h
      · have hres := hinv.resolved j hj h
        rw [hrj] at hres
        exact absurd hres (by decide)
      · omega
    omega

/-- Witness for C1 at a concrete reachable run (source succeeded, build
running). -/
theorem pipeline_stage_order_witness :
    demoBuildRun.stages.length ≤ pipelineStages.length ∧
    (∀ (i : Nat) (hi : i < demoBuildRun.stages.length),
      demoBuildRun.stages[i].kind = declaredKind i) ∧
    (∀ (i j : Nat) (hi : i < demoBuildRun.stages.length)
      (hj : j < demoBuildRun.stages.length),
      j < i → demoBuildRun.stages[i].status = StageStatus.running →
      demoBuildRun.stages[j].status = StageStatus.succeeded) ∧
    (∀ (i j : Nat) (hi : i < demoBuildRun.stages.length)
      (hj : j < demoBuildRun.stages.length),
      demoBuildRun.stages[i].status = StageStatus.running →
      demoBuildRun.stages[j].status = StageStatus.running → i = j) :=
  pipeline_stage_order demoBuildRun
    (Reachable.step _ (Reachable.trigger "abc123"))

/-- C7: For every PipelineRun in which any stage fails (including a gate
rejection), the run's status becomes `failed`, no further stage is ever
instantiated or started within that run, and no automatic retry occurs —
every subsequent event leaves the run unchanged, so only a new trigger can
start new work.  (Modelled from spec §4.1.) -/
theorem failed_stage_terminal_run (r : PipelineRun) (hr : Reachable r)
    (hf : ∃ st ∈ r.stages, st.status = StageStatus.failed) :
    r.status = RunStatus.failed ∧ ∀ e : PipeEvent, step r e = r := by
  have hinv := reachable_inv hr
  obtain ⟨st, hmem, hst⟩ := hf
  obtain ⟨i, hi, hgi⟩ := List.getElem_of_mem hmem
  have hfail : r.status = RunStatus.failed := hinv.failedRun i hi (by rw [hgi]; exact hst)
  have hterm : r.status.isTerminal = true := by rw [hfail]; rfl
  refine ⟨hfail, ?_⟩
  intro e
  cases e with
  | complete idx ok out => simp [step, advance, hterm]
  | decision idx d => simp [step, submitDecision, hterm]
  | cancel => simp [step, cancelRun, hterm]

/-- Witness for C7 at the spec §8 rejection scenario: gate rejected, run
failed, deploy never instantiated, and every further event is ignored. -/
theorem failed_stage_terminal_run_witness :
    demoRejectedRun.status = RunStatus.failed ∧
    ∀ e : PipeEvent, step demoRejectedRun e = demoRejectedRun :=
  failed_stage_terminal_run demoRejectedRun
    (Reachable.step _ (Reachable.step _ (Reachable.step _ (Reachable.trigger "abc123"))))
    ⟨{ kind := StageKind.approval, status := StageStatus.failed,
       inputArtifacts := ["imagedefinitions.json"], outputArtifacts := [] },
      by decide, rfl⟩

/-- C8: Re-delivering the same completion event for an already-resolved stage
execution is a no-op: replaying a build-completion event for an
already-`succeeded` build stage leaves the run (its stage list and artifact
set) unchanged.  (Modelled from spec §4.1 idempotence.) -/
theorem completion_replay_noop (r : PipelineRun) (idx : Nat) (st : StageExecution)
    (hget : r.stages[idx]? = some st) (hst : st.status = StageStatus.succeeded)
    (ok : Bool) (out : List ArtifactRef) :
    step r (PipeEvent.complete idx ok out) = r := by
  show advance r idx ok out = r
  unfold advance
  split
  · rfl
  · simp only [hget, hst]
    rw [if_neg (by decide)]

/-- Witness for C8: replaying the build-completion event on the run where the
build stage already succeeded changes nothing. -/
theorem completion_replay_noop_witness :
    step demoWaitingRun (PipeEvent.complete 1 true ["imagedefinitions.json"])
      = demoWaitingRun :=
  completion_replay_noop demoWaitingRun 1
    { kind := StageKind.build, status := StageStatus.succeeded,
      inputArtifacts := ["sourceArtifact"], outputArtifacts := ["imagedefinitions.json"] }
    (by decide) rfl true ["imagedefinitions.json"]

/-- C6: For every Deployment Gate stage execution, exactly one
ApprovalDecision is accepted: the first decision transitions `waiting` to
`succeeded` (approve) or `failed` (reject), and any subsequent decision
attempt returns ApprovalConflict and leaves the run — in particular the stage
status — unchanged.  (Modelled from spec §4.3.) -/
theorem gate_exactly_one_decision (r : PipelineRun) (idx : Nat)
    (st : StageExecution) (hget : r.stages[idx]? = some st)
    (hw : st.status = StageStatus.waiting) (hlive : r.status.isTerminal = false)
    (d : Decision) :
    (submitDecision r idx d).2 = Except.ok () ∧
    ((submitDecision r idx d).1.stages[idx]?.map StageExecution.status
        = some (decisionOutcome d)) ∧
    (∀ d2 : Decision, submitDecision (submitDecision r idx d).1 idx d2
        = ((submitDecision r idx d).1, Except.error GateError.approvalConflict)) := by
  have hidx : idx < r.stages.length := (List.getElem?_eq_some_iff.mp hget).1
  have heq : submitDecision r idx d =
      (match d with
        | Decision.approve => (resolveSucceeded r idx st st.inputArtifacts, Except.ok ())
        | Decision.reject =>
          ({ r with
              stages := r.stages.set idx { st with status := StageStatus.failed }
              status := RunStatus.failed },
            Except.ok ())) := by
    unfold submitDecision
    rw [hlive]
    simp [hget, hw]
  cases d with
  | approve =>
    rw [heq]
    refine ⟨rfl, ?_, ?_⟩
    · rw [resolveSucceeded_stage hidx]
      rfl
    · intro d2
      exact submitDecision_resolved (resolveSucceeded_stage hidx st.inputArtifacts)
        (by simp) d2
  | reject =>
    rw [heq]
    refine ⟨rfl, ?_, ?_⟩
    · simp only [List.getElem?_set_self hidx]
      rfl
    · intro d2
      simp [submitDecision, RunStatus.isTerminal]

/-- Witness for C6 at the concrete run whose gate stage is `waiting`:
approving succeeds once and every second decision is an ApprovalConflict
leaving the run unchanged. -/
theorem gate_exactly_one_decision_witness :
    (submitDecision demoWaitingRun 2 Decision.approve).2 = Except.ok () ∧
    ((submitDecision demoWaitingRun 2 Decision.approve).1.stages[2]?.map
        StageExecution.status = some (decisionOutcome Decision.approve)) ∧
    (∀ d2 : Decision,
      submitDecision (submitDecision demoWaitingRun 2 Decision.approve).1 2 d2
        = ((submitDecision demoWaitingRun 2 Decision.approve).1,
            Except.error GateError.approvalConflict)) :=
  gate_exactly_one_decision demoWaitingRun 2
    { kind := StageKind.approval, status := StageStatus.waiting,
      inputArtifacts := ["imagedefinitions.json"], outputArtifacts := [] }
    (by decide) rfl rfl Decision.approve

/-- C3: For every deploy stage execution whose DeploymentManifest references a
logical-container-name absent from the target service's task definition, the
deploy stage fails with ValidationError and the service state — in particular
its replica set — is byte-for-byte unchanged (all-or-nothing validation).
(Deployer modelled from spec §4.4; target container from the source's
task definition.) -/
theorem deploy_validation_no_side_effect (svc : ServiceState)
    (manifest : List ManifestEntry) (e : ManifestEntry) (he : e ∈ manifest)
    (hn : e.name ∉ svc.containers.map ContainerDef.name) :
    deployStep svc manifest = (svc, Except.error DeployError.validationError) := by
  have hfalse :
      ¬ (manifest.all
          (fun e2 => (svc.containers.map ContainerDef.name).contains e2.name) = true) := by
    intro hall
    rw [List.all_eq_true] at hall
    exact hn (List.elem_iff.mp (hall e he))
  unfold deployStep
  rw [if_neg hfalse]

/-- Witness for C3: deploying a manifest naming `web-app` against the service
whose only container is `streamlit-app` fails with ValidationError and leaves
the service state equal to what it was. -/
theorem deploy_validation_no_side_effect_witness :
    deployStep initialService [{ name := "web-app", imageUri := "repo:latest" }]
      = (initialService, Except.error DeployError.validationError) :=
  deploy_validation_no_side_effect initialService
    [{ name := "web-app", imageUri := "repo:latest" }]
    { name := "web-app", imageUri := "repo:latest" }
    (by decide) (by decide)

/-- Scale-out shape of one controller observation when utilization is above
target, no cooldown is active and capacity remains: the desired count becomes
the clamped increase and the scale-out time is recorded. -/
theorem observe_scaleOut {svc : ServiceState} {now util stepSize : Nat}
    (hutil : cpuScalingPolicy.targetUtilization < util)
    (hcool : scaleOutCooldownActive cpuScalingPolicy svc now = false)
    (hlt : svc.desiredCount < cpuScalingPolicy.maxCapacity) (hstep : 0 < stepSize) :
    observe cpuScalingPolicy svc now util stepSize =
      { svc with
          desiredCount := min (svc.desiredCount + stepSize) cpuScalingPolicy.maxCapacity
          lastScaleOut := some now } := by
  unfold observe
  rw [if_pos hutil, hcool]
  simp only [Bool.false_eq_true, if_false]
  rw [if_pos (by omega)]

/-- An observation above target with an active scale-out cooldown changes
nothing. -/
theorem observe_cooldown_noop {svc : ServiceState} {now util stepSize : Nat}
    (hutil : cpuScalingPolicy.targetUtilization < util)
    (hcool : scaleOutCooldownActive cpuScalingPolicy svc now = true) :
    observe cpuScalingPolicy svc now util stepSize = svc := by
  unfold observe
  rw [if_pos hutil, hcool]
  simp

/-- An observation above target with the service already at maximum capacity
changes nothing. -/
theorem observe_at_max {svc : ServiceState} {now util stepSize : Nat}
    (hutil : cpuScalingPolicy.targetUtilization < util)
    (hcool : scaleOutCooldownActive cpuScalingPolicy svc now = false)
    (hd : cpuScalingPolicy.maxCapacity ≤ svc.desiredCount) :
    observe cpuScalingPolicy svc now util stepSize = svc := by
  unfold observe
  rw [if_pos hutil, hcool]
  simp only [Bool.false_eq_true, if_false]
  rw [if_neg (by omega)]

/-- C4: For the Capacity Controller, whenever utilization exceeds the target
and no scale-out cooldown is active, the desired replica count strictly
increases (whenever capacity remains) but never exceeds maxCapacity; any
further above-target observation within scaleOutCooldown of that scale-out
produces no additional scale-out.  (Controller modelled from spec §4.5 with
the source's policy: target 10%, maxCapacity 4, scaleOutCooldown 60s.) -/
theorem capacity_scale_out_clamped_and_damped (svc : ServiceState)
    (now util stepSize : Nat)
    (hmax : svc.desiredCount ≤ cpuScalingPolicy.maxCapacity)
    (hutil : cpuScalingPolicy.targetUtilization < util)
    (hcool : scaleOutCooldownActive cpuScalingPolicy svc now = false)
    (hstep : 0 < stepSize) :
    (observe cpuScalingPolicy svc now util stepSize).desiredCount
        ≤ cpuScalingPolicy.maxCapacity ∧
    (svc.desiredCount < cpuScalingPolicy.maxCapacity →
      svc.desiredCount < (observe cpuScalingPolicy svc now util stepSize).desiredCount) ∧
    (svc.desiredCount < cpuScalingPolicy.maxCapacity →
      ∀ now2 util2 stepSize2 : Nat,
        now2 < now + cpuScalingPolicy.scaleOutCooldown →
        cpuScalingPolicy.targetUtilization < util2 →
        observe cpuScalingPolicy (observe cpuScalingPolicy svc now util stepSize)
            now2 util2 stepSize2
          = observe cpuScalingPolicy svc now util stepSize) := by
  rcases Nat.lt_or_ge svc.desiredCount cpuScalingPolicy.maxCapacity with hd | hd
  · rw [observe_scaleOut hutil hcool hd hstep]
    refine ⟨by simp, fun _ => by simp; omega, fun _ => ?_⟩
    intro now2 util2 stepSize2 hnow2 hutil2
    exact observe_cooldown_noop hutil2
      (by simp [scaleOutCooldownActive]; omega)
  · rw [observe_at_max hutil hcool hd]
    exact ⟨hmax, fun hlt => absurd hlt (by omega), fun hlt => absurd hlt (by omega)⟩

/-- Witness for C4 at the initial service (1 replica, no cooldown), observed
at time 100 with utilization 50% and step 1. -/
theorem capacity_scale_out_clamped_and_damped_witness :
    (observe cpuScalingPolicy initialService 100 50 1).desiredCount
        ≤ cpuScalingPolicy.maxCapacity ∧
    (initialService.desiredCount < cpuScalingPolicy.maxCapacity →
      initialService.desiredCount
        < (observe cpuScalingPolicy initialService 100 50 1).desiredCount) ∧
    (initialService.desiredCount < cpuScalingPolicy.maxCapacity →
      ∀ now2 util2 stepSize2 : Nat,
        now2 < 100 + cpuScalingPolicy.scaleOutCooldown →
        cpuScalingPolicy.targetUtilization < util2 →
        observe cpuScalingPolicy (observe cpuScalingPolicy initialService 100 50 1)
            now2 util2 stepSize2
          = observe cpuScalingPolicy initialService 100 50 1) :=
  capacity_scale_out_clamped_and_damped initialService 100 50 1
    (by decide) (by decide) rfl (by decide)

/-- The deployer never changes the desired replica count. -/
theorem deployStep_desiredCount (svc : ServiceState) (manifest : List ManifestEntry) :
    (deployStep svc manifest).1.desiredCount = svc.desiredCount := by
  unfold deployStep
  split
  · rfl
  · rfl

/-- C9: The service's desired replica count always stays within [1, 4]: the
initial desired count is 1 (`desiredCount: 1`), the scaling minimum defaults
to 1, the maximum is 4 (`maxCapacity: 4`), and no deploy or scaling operation
can drive the count outside these bounds. -/
theorem desired_count_within_bounds (s : ServiceState) (h : SvcReachable s) :
    1 ≤ s.desiredCount ∧ s.desiredCount ≤ 4 := by
  induction h with
  | init => exact ⟨by decide, by decide⟩
  | observe now util stepSize hs ih =>
    unfold observe
    split
    · split
      · exact ih
      · split
        · constructor
          · show 1 ≤ min _ cpuScalingPolicy.maxCapacity
            have h4 : cpuScalingPolicy.maxCapacity = 4 := rfl
            omega
          · show min _ cpuScalingPolicy.maxCapacity ≤ 4
            have h4 : cpuScalingPolicy.maxCapacity = 4 := rfl
            omega
        · exact ih
    · split
      · split
        · exact ih
        · split
          · constructor
            · show 1 ≤ max _ cpuScalingPolicy.minCapacity
              have h1 : cpuScalingPolicy.minCapacity = 1 := rfl
              omega
            · show max _ cpuScalingPolicy.minCapacity ≤ 4
              have h1 : cpuScalingPolicy.minCapacity = 1 := rfl
              omega
          · exact ih
      · exact ih
  | deploy manifest hs ih =>
    rw [deployStep_desiredCount]
    exact ih

/-- Witness for C9 at the initial service state. -/
theorem desired_count_within_bounds_witness :
    1 ≤ initialService.desiredCount ∧ initialService.desiredCount ≤ 4 :=
  desired_count_within_bounds initialService SvcReachable.init

/-- C5: For every successful build stage execution, the emitted deployment
manifest is a single-element flat list of records (name, imageUri) whose name
equals the service's declared container name (`streamlit-app`) and whose
imageUri has the shape registry/repo:tag.  (Manifest and container name from
the source's buildspec and task definition; the ECR repository URI shape is
the spec §6 `registry/repo` form.) -/
theorem build_manifest_single_entry (account region repoName revision : String) :
    (buildManifest (ecrRepoUri account region repoName) revision).length = 1 ∧
    ∃ tag : String,
      buildManifest (ecrRepoUri account region repoName) revision
        = [{ name := containerName
             imageUri := registryOf account region ++ "/" ++ repoName ++ ":" ++ tag }] :=
  ⟨rfl, "latest", rfl⟩

/-- Counterexample to C2 as stated: the buildspec fixes `export tag=latest`,
so two runs from the distinct revisions `abc123` and `def456` record exactly
the same image reference. -/
theorem fixed_tag_same_reference_for_distinct_revisions :
    "abc123" ≠ "def456" ∧
    buildManifest (ecrRepoUri "111122223333" "ap-northeast-1" "ecs-cdk-repo") "abc123"
      = buildManifest (ecrRepoUri "111122223333" "ap-northeast-1" "ecs-cdk-repo") "def456" :=
  ⟨by decide, rfl⟩

/-- C2 (amended): For every build stage execution, the manifest's image
reference carries the fixed tag `latest` independent of the triggering
revision; runs from different revisions therefore record the identical
(mutable) image reference — the §9 known weakness — rather than a
revision-deterministic one. -/
theorem build_tag_fixed_latest (repoUri revision revision2 : String) :
    buildTagOf revision = "latest" ∧
    buildManifest repoUri revision = buildManifest repoUri revision2 :=
  ⟨rfl, rfl⟩

/-- C10: Until the first successful pipeline deploy, the running service's
container image is the unmodified public base image
`public.ecr.aws/docker/library/python:3.11-slim`, and the initial task
definition never references the ECR repository the build stage pushes to:
the base image equals no `ecrRepoUri:tag` reference, whatever the account,
region, repository name and tag. -/
theorem initial_image_is_public_base :
    initialService.containers = [{ name := containerName, image := baseImage }] ∧
    baseImage = "public.ecr.aws/docker/library/python:3.11-slim" ∧
    ∀ account region repoName tag : String,
      baseImage ≠ ecrRepoUri account region repoName ++ ":" ++ tag := by
  refine ⟨rfl, rfl, ?_⟩
  intro account region repoName tag h
  have hdata : baseImage.data =
      account.data ++ (".dkr.ecr.".data ++ (region.data ++ (".amazonaws.com".data
        ++ ("/".data ++ (repoName.data ++ (":".data ++ tag.data)))))) := by
    rw [h]
    simp [ecrRepoUri, registryOf, String.data_append]
  have hinf : ".dkr.ecr.".data <:+: baseImage.data :=
    ⟨account.data,
      region.data ++ (".amazonaws.com".data
        ++ ("/".data ++ (repoName.data ++ (":".data ++ tag.data)))),
      by rw [hdata]; simp [List.append_assoc]⟩
  exact absurd hinf (by decide)

end EcsCdk
